import Mathlib

/-!
Verification of the file-sharing HTTP server (`src/server.js`).

The server keeps an ordered list of `FileRecord`s in a JSON document
(`files.json`, the Metadata Store) and the uploaded blobs in an `uploads/`
directory (Blob Storage).  Every handler reads the full list, possibly
mutates an in-memory copy, and writes the full list back.

Shallow embedding choices:
  * `FileRecord` mirrors the object literal built in the upload handler.
  * The backing metadata document is modelled by `DocState`: it is absent,
    unreadable (`fs.readFileSync` throws), malformed (`JSON.parse` throws),
    or a well-formed record array.
  * JavaScript exceptions are modelled by `JsResult`; `readFiles` is the
    try/catch of the source split into the try-block body (`tryReadBody`,
    where `none` means the `if` fell through to the final `return []`) and
    the surrounding catch.
  * `fs.writeFileSync` success/failure is environmental, so each handler
    that writes takes a `writeOk : Bool` telling whether the write succeeds.
  * The blob directory is the list of file names present in `uploads/`;
    `fs.existsSync(path.join(uploads, filename))` is `blobs.contains filename`
    and `fs.unlinkSync` removes that name.
  * Handlers are functions from server state (plus request data and the
    clock values the runtime supplies) to an HTTP response paired with the
    state after the request.  The clock is passed to every handler; handlers
    that never consult it ignore the argument.
-/

namespace FileShare

/-- The metadata object the upload handler builds and persists
(field names verbatim from `server.js`). -/
structure FileRecord where
  id : String
  name : String
  size : Nat
  type : String
  uploadDate : String
  author : String
  authorId : String
  authorColor : String
  filename : String
  path : String
deriving DecidableEq

/-- Result of running a piece of JavaScript: a value, or a thrown exception. -/
inductive JsResult (α : Type) where
  | ok (value : α)
  | thrown (err : String)
deriving DecidableEq

/-- Observable states of the backing metadata document `files.json`. -/
inductive DocState where
  | absent
  | unreadable
  | malformed
  | wellFormed (records : List FileRecord)
deriving DecidableEq

/-- The try-block body of `readFiles`: `none` when the `existsSync` guard is
false and control falls through to the trailing `return []`; otherwise the
result of `JSON.parse(fs.readFileSync(...))`, which may throw. -/
def tryReadBody : DocState → Option (JsResult (List FileRecord))
  | DocState.absent => none
  | DocState.unreadable => some (JsResult.thrown "read error")
  | DocState.malformed => some (JsResult.thrown "SyntaxError: Unexpected token")
  | DocState.wellFormed rs => some (JsResult.ok rs)

/-- `readFiles` from `server.js`: the try-block body wrapped in the catch
(which logs and falls through to `return []`). -/
def readFiles (d : DocState) : JsResult (List FileRecord) :=
  match tryReadBody d with
  | some (JsResult.ok rs) => JsResult.ok rs
  | some (JsResult.thrown _) => JsResult.ok []
  | none => JsResult.ok []

/-- The list value `readFiles` hands to its callers. -/
def readFilesVal (d : DocState) : List FileRecord :=
  match readFiles d with
  | JsResult.ok rs => rs
  | JsResult.thrown _ => []

/-- Response bodies produced by the handlers. -/
inductive Body where
  | errPayload (message : String)
  | record (r : FileRecord)
  | records (rs : List FileRecord)
  | message (m : String)
  | statusPayload (status message timestamp : String)
  | fileStream (storedFilename suggestedName : String)
deriving DecidableEq

/-- An HTTP response: status code and JSON/stream body. -/
structure Resp where
  status : Nat
  body : Body
deriving DecidableEq

/-- Persistent server state: the metadata document and the names present in
the `uploads/` directory. -/
structure ServerState where
  doc : DocState
  blobs : List String
deriving DecidableEq

/-- What multer hands the upload handler in `req.file` (the blob has already
been written to `uploads/` under `filename` when the handler body runs). -/
structure UploadedFile where
  originalname : String
  size : Nat
  mimetype : String
  filename : String
  path : String
deriving DecidableEq

/-- The client-supplied author object parsed from the `user` form field. -/
structure User where
  id : String
  name : String
  color : String
deriving DecidableEq

/-- `GET /api/status`: constant payload plus the current time in ISO format. -/
def statusHandler (nowIso : String) : Resp :=
  { status := 200
    body := Body.statusPayload "OK" "Сервер файлообменника работает" nowIso }

/-- `GET /api/files`: returns the list from the Metadata Store, touching
nothing.  The runtime clock is available to every handler; this one does not
consult it. -/
def filesHandler (st : ServerState) (nowIso : String) : Resp × ServerState :=
  ({ status := 200, body := Body.records (readFilesVal st.doc) }, st)

/-- The `fileInfo` object literal of the upload handler. -/
def mkFileInfo (f : UploadedFile) (u : User) (nowMs : Nat)
    (uploadDate : String) : FileRecord :=
  { id := toString nowMs
    name := f.originalname
    size := f.size
    type := f.mimetype
    uploadDate := uploadDate
    author := u.name
    authorId := u.id
    authorColor := u.color
    filename := f.filename
    path := f.path }

/-- `POST /api/upload`.  `file` is `req.file` (`none` when no file was sent,
in which case multer wrote no blob); `userField` is the result of
`JSON.parse(req.body.user)` (`none` when the parse throws, caught by the
handler's try/catch); `nowMs` is `Date.now()` and `uploadDate` the
locale-formatted time; `writeOk` tells whether `writeFiles` succeeds. -/
def uploadHandler (st : ServerState) (file : Option UploadedFile)
    (userField : Option User) (nowMs : Nat) (uploadDate : String)
    (writeOk : Bool) : Resp × ServerState :=
  match file with
  | none => ({ status := 400, body := Body.errPayload "Файл не был загружен" }, st)
  | some f =>
    let st1 : ServerState := { st with blobs := st.blobs ++ [f.filename] }
    match userField with
    | none =>
      ({ status := 500, body := Body.errPayload "Ошибка при загрузке файла" }, st1)
    | some u =>
      let fileInfo := mkFileInfo f u nowMs uploadDate
      let files := readFilesVal st1.doc
      let files2 := files ++ [fileInfo]
      if writeOk then
        ({ status := 200, body := Body.record fileInfo },
         { st1 with doc := DocState.wellFormed files2 })
      else
        ({ status := 500,
           body := Body.errPayload "Ошибка сохранения информации о файле" }, st1)

/-- `GET /api/download/:id`: `files.find` on the id, then an `existsSync`
check on `uploads/<filename>`, then `res.download(filePath, file.name)`. -/
def downloadHandler (st : ServerState) (reqId : String) : Resp × ServerState :=
  let files := readFilesVal st.doc
  match files.find? (fun f => f.id == reqId) with
  | none => ({ status := 404, body := Body.errPayload "Файл не найден" }, st)
  | some file =>
    if st.blobs.contains file.filename then
      ({ status := 200, body := Body.fileStream file.filename file.name }, st)
    else
      ({ status := 404, body := Body.errPayload "Файл не найден на сервере" }, st)

/-- `files.findIndex` followed by `files[fileIndex]`: the index of the first
record satisfying `p` together with that record. -/
def findWithIdx (p : FileRecord → Bool) : List FileRecord → Option (Nat × FileRecord)
  | [] => none
  | f :: fs =>
    if p f then some (0, f)
    else (findWithIdx p fs).map (fun q => (q.1 + 1, q.2))

/-- `DELETE /api/files/:id` with body `{userId}`.  Looks up the first record
with the requested id, authorizes by strict equality on `authorId`, unlinks
the blob when present, splices the record out and rewrites the store
(`writeOk` tells whether the rewrite succeeds). -/
def deleteHandler (st : ServerState) (reqId userId : String)
    (writeOk : Bool) : Resp × ServerState :=
  let files := readFilesVal st.doc
  match findWithIdx (fun f => f.id == reqId) files with
  | none => ({ status := 404, body := Body.errPayload "Файл не найден" }, st)
  | some (fileIndex, file) =>
    if file.authorId == userId then
      let blobs2 :=
        if st.blobs.contains file.filename then st.blobs.erase file.filename
        else st.blobs
      let files2 := files.eraseIdx fileIndex
      if writeOk then
        ({ status := 200, body := Body.message "Файл удален" },
         { doc := DocState.wellFormed files2, blobs := blobs2 })
      else
        ({ status := 500, body := Body.errPayload "Ошибка при удалении файла" },
         { st with blobs := blobs2 })
    else
      ({ status := 403, body := Body.errPayload "Нельзя удалить чужой файл" }, st)

/-! ### Helper lemmas -/

lemma readFilesVal_wellFormed (rs : List FileRecord) :
    readFilesVal (DocState.wellFormed rs) = rs := rfl

/-- `fs.existsSync` guard plus `fs.unlinkSync` equals unconditional erasure:
erasing an absent name is the identity. -/
lemma erase_cond_eq_erase (l : List String) (a : String) :
    (if l.contains a then l.erase a else l) = l.erase a := by
  by_cases h : l.contains a = true
  · rw [if_pos h]
  · rw [if_neg h]
    have hmem : a ∉ l := by simpa using h
    exact (List.erase_of_not_mem hmem).symm

/-- `find` returns the record part of `findIndex`-plus-access. -/
lemma find_eq_findWithIdx_snd (p : FileRecord → Bool) (l : List FileRecord) :
    l.find? p = (findWithIdx p l).map Prod.snd := by
  induction l with
  | nil => rfl
  | cons f fs ih =>
    by_cases h : p f
    · simp [findWithIdx, List.find?, h]
    · simp only [findWithIdx, List.find?, h, if_neg, Bool.false_eq_true,
        not_false_iff, if_false]
      rw [ih, Option.map_map]
      rfl

/-- When everything before `r` fails the predicate and `r` satisfies it, the
first match is `r` at index `pre.length`. -/
lemma findWithIdx_append_first (p : FileRecord → Bool) (pre rest : List FileRecord)
    (r : FileRecord) (hr : p r = true) (hpre : ∀ x ∈ pre, p x = false) :
    findWithIdx p (pre ++ r :: rest) = some (pre.length, r) := by
  induction pre with
  | nil => simp [findWithIdx, hr]
  | cons x xs ih =>
    have hx : p x = false := hpre x (by simp)
    have ih2 := ih (fun y hy => hpre y (by simp [hy]))
    simp [findWithIdx, hx, ih2]

/-- Splicing out the element at the junction index removes exactly it. -/
lemma eraseIdx_append_cons (pre rest : List FileRecord) (r : FileRecord) :
    (pre ++ r :: rest).eraseIdx pre.length = pre ++ rest := by
  induction pre with
  | nil => rfl
  | cons x xs ih => simp [List.eraseIdx, ih]

/-- Splicing out an element as the source's `files.splice(fileIndex, 1)`
does: everything before index `i` and everything after it, in order. -/
lemma eraseIdx_eq_take_append_drop (l : List FileRecord) (i : Nat) :
    l.eraseIdx i = l.take i ++ l.drop (i + 1) := by
  induction l generalizing i with
  | nil => simp [List.eraseIdx]
  | cons x xs ih =>
    cases i with
    | zero => simp [List.eraseIdx]
    | succ n => simp [List.eraseIdx, ih]

/-! ### Sample data for concrete witnesses -/

/-- A sample record as the upload handler would create it. -/
def recA : FileRecord :=
  { id := "1700000000000"
    name := "report.pdf"
    size := 1024
    type := "application/pdf"
    uploadDate := "01.01.2025, 12:00:00"
    author := "Alice"
    authorId := "u1"
    authorColor := "#ff0000"
    filename := "1700000000000-report.pdf"
    path := "/srv/uploads/1700000000000-report.pdf" }

/-- A second sample record with a different id and author. -/
def recB : FileRecord :=
  { id := "1700000000001"
    name := "notes.txt"
    size := 64
    type := "text/plain"
    uploadDate := "01.01.2025, 12:00:01"
    author := "Bob"
    authorId := "u2"
    authorColor := "#00ff00"
    filename := "1700000000001-notes.txt"
    path := "/srv/uploads/1700000000001-notes.txt" }

/-- A third sample record with yet another id. -/
def recC : FileRecord :=
  { id := "1700000000002"
    name := "data.csv"
    size := 2048
    type := "text/csv"
    uploadDate := "01.01.2025, 12:00:02"
    author := "Alice"
    authorId := "u1"
    authorColor := "#ff0000"
    filename := "1700000000002-data.csv"
    path := "/srv/uploads/1700000000002-data.csv" }

/-- A record whose id collides with `recA` (same-millisecond collision) but
whose author and stored blob differ. -/
def recDup : FileRecord :=
  { id := "1700000000000"
    name := "dup.bin"
    size := 16
    type := "application/octet-stream"
    uploadDate := "01.01.2025, 12:00:00"
    author := "Bob"
    authorId := "u2"
    authorColor := "#00ff00"
    filename := "1700000000000-dup.bin"
    path := "/srv/uploads/1700000000000-dup.bin" }

/-! ### Claims -/

/-- Claim C5: the Metadata Store read never raises to its caller — it
returns the full record list in order when the document is well-formed and
the empty sequence when the document is absent, malformed, or unreadable. -/
theorem readFiles_safe_c5 :
    (∀ d : DocState, ∃ rs, readFiles d = JsResult.ok rs) ∧
    (∀ rs, readFiles (DocState.wellFormed rs) = JsResult.ok rs) ∧
    readFiles DocState.absent = JsResult.ok [] ∧
    readFiles DocState.malformed = JsResult.ok [] ∧
    readFiles DocState.unreadable = JsResult.ok [] := by
  refine ⟨fun d => ?_, fun rs => rfl, rfl, rfl, rfl⟩
  cases d <;> exact ⟨_, rfl⟩

/-- Claim C6 (counterexample): two `GET /api/status` calls at distinct times,
with no intervening writes, do not return identical results — the timestamp
field differs. -/
theorem status_not_time_invariant_c6 :
    statusHandler "2025-01-01T00:00:00.000Z" ≠
      statusHandler "2025-01-01T00:00:01.000Z" := by
  decide

/-- Claim C6 (amended): with no intervening writes, repeated `GET /api/files`
calls return identical results regardless of the call time; repeated
`GET /api/status` responses agree on status and message, and the full
responses are identical exactly when the call timestamps coincide. -/
theorem repeated_reads_c6 (st : ServerState) (t₁ t₂ : String) :
    filesHandler st t₁ = filesHandler st t₂ ∧
    (statusHandler t₁).status = (statusHandler t₂).status ∧
    (statusHandler t₁ = statusHandler t₂ ↔ t₁ = t₂) := by
  refine ⟨rfl, rfl, ?_, fun h => by rw [h]⟩
  intro h
  simpa [statusHandler, Resp.mk.injEq, Body.statusPayload.injEq] using h

/-- Claim C9: the listing handler and the download handler never modify the
metadata document or the blob directory — the state after the request equals
the state before it. -/
theorem readonly_handlers_c9 (st : ServerState) (reqId nowIso : String) :
    (filesHandler st nowIso).2 = st ∧ (downloadHandler st reqId).2 = st := by
  refine ⟨rfl, ?_⟩
  simp only [downloadHandler]
  split
  · rfl
  · split <;> rfl

/-- Claim C1: a well-formed upload whose metadata write succeeds responds
HTTP 200 with the created record, whose name, size, type and authorId come
from the uploaded file and the supplied user; the metadata list afterwards is
the prior list with exactly that one record appended, and a subsequent
listing returns exactly that list. -/
theorem upload_success_c1 (st : ServerState) (f : UploadedFile) (u : User)
    (nowMs : Nat) (uploadDate nowIso : String) :
    (mkFileInfo f u nowMs uploadDate).name = f.originalname ∧
    (mkFileInfo f u nowMs uploadDate).size = f.size ∧
    (mkFileInfo f u nowMs uploadDate).type = f.mimetype ∧
    (mkFileInfo f u nowMs uploadDate).authorId = u.id ∧
    (uploadHandler st (some f) (some u) nowMs uploadDate true).1 =
      { status := 200, body := Body.record (mkFileInfo f u nowMs uploadDate) } ∧
    readFilesVal (uploadHandler st (some f) (some u) nowMs uploadDate true).2.doc =
      readFilesVal st.doc ++ [mkFileInfo f u nowMs uploadDate] ∧
    (filesHandler (uploadHandler st (some f) (some u) nowMs uploadDate true).2 nowIso).1 =
      { status := 200
        body := Body.records (readFilesVal st.doc ++ [mkFileInfo f u nowMs uploadDate]) } := by
  refine ⟨rfl, rfl, rfl, rfl, rfl, ?_, ?_⟩ <;>
    simp [uploadHandler, filesHandler, readFilesVal_wellFormed]

/-- Claim C7: an upload with no file attached gets HTTP 400 and leaves the
state untouched; an upload whose `user` field fails to parse gets HTTP 500
from the handler's catch; in both cases no record is appended to the
metadata list. -/
theorem upload_failure_c7 (st : ServerState) (f : UploadedFile)
    (u : Option User) (nowMs : Nat) (uploadDate : String) (w : Bool) :
    uploadHandler st none u nowMs uploadDate w =
      ({ status := 400, body := Body.errPayload "Файл не был загружен" }, st) ∧
    (uploadHandler st (some f) none nowMs uploadDate w).1 =
      { status := 500, body := Body.errPayload "Ошибка при загрузке файла" } ∧
    readFilesVal (uploadHandler st (some f) none nowMs uploadDate w).2.doc =
      readFilesVal st.doc := by
  exact ⟨rfl, rfl, rfl⟩

/-- Claim C2: a download for an id with no record in the current metadata
list gets HTTP 404; with a record whose blob is absent from the uploads
directory it gets HTTP 404 with a distinct message; otherwise HTTP 200
streaming the blob under the record's original name. -/
theorem download_spec_c2 (st : ServerState) (reqId : String) :
    ((readFilesVal st.doc).find? (fun f => f.id == reqId) = none →
      downloadHandler st reqId =
        ({ status := 404, body := Body.errPayload "Файл не найден" }, st)) ∧
    (∀ file, (readFilesVal st.doc).find? (fun f => f.id == reqId) = some file →
      st.blobs.contains file.filename = false →
      downloadHandler st reqId =
        ({ status := 404, body := Body.errPayload "Файл не найден на сервере" }, st)) ∧
    (∀ file, (readFilesVal st.doc).find? (fun f => f.id == reqId) = some file →
      st.blobs.contains file.filename = true →
      downloadHandler st reqId =
        ({ status := 200, body := Body.fileStream file.filename file.name }, st)) := by
  refine ⟨fun h => ?_, fun file h hb => ?_, fun file h hb => ?_⟩
  · simp [downloadHandler, h]
  · have hb' : file.filename ∉ st.blobs := by simpa using hb
    simp [downloadHandler, h, hb']
  · have hb' : file.filename ∈ st.blobs := by simpa using hb
    simp [downloadHandler, h, hb']

/-- Concrete instantiation of `download_spec_c2`: all three branches on
explicit states. -/
theorem download_spec_c2_witness :
    downloadHandler ⟨DocState.wellFormed [], ["x"]⟩ "42" =
      ({ status := 404, body := Body.errPayload "Файл не найден" },
       ⟨DocState.wellFormed [], ["x"]⟩) ∧
    downloadHandler ⟨DocState.wellFormed [recA], []⟩ "1700000000000" =
      ({ status := 404, body := Body.errPayload "Файл не найден на сервере" },
       ⟨DocState.wellFormed [recA], []⟩) ∧
    downloadHandler ⟨DocState.wellFormed [recA], [recA.filename]⟩ "1700000000000" =
      ({ status := 200, body := Body.fileStream recA.filename recA.name },
       ⟨DocState.wellFormed [recA], [recA.filename]⟩) := by
  refine ⟨(download_spec_c2 _ _).1 (by decide),
          (download_spec_c2 _ _).2.1 recA (by decide) (by decide),
          (download_spec_c2 _ _).2.2 recA (by decide) (by decide)⟩

/-- Claim C3: a delete whose id matches a record and whose userId equals
that record's authorId removes the blob (a missing blob is not an error),
rewrites the list without that record, and on a successful rewrite responds
HTTP 200 with a confirmation; even if the rewrite fails, the blob has
already been removed while the document is untouched. -/
theorem delete_success_c3 (st : ServerState) (reqId uid : String) (k : Nat)
    (file : FileRecord)
    (hfind : findWithIdx (fun f => f.id == reqId) (readFilesVal st.doc) = some (k, file))
    (hauth : file.authorId = uid) :
    deleteHandler st reqId uid true =
      ({ status := 200, body := Body.message "Файл удален" },
       { doc := DocState.wellFormed ((readFilesVal st.doc).eraseIdx k)
         blobs := st.blobs.erase file.filename }) ∧
    (deleteHandler st reqId uid false).2.blobs = st.blobs.erase file.filename ∧
    (deleteHandler st reqId uid false).2.doc = st.doc := by
  refine ⟨?_, ?_, ?_⟩ <;>
    simp [deleteHandler, hfind, hauth] <;>
    exact fun hm => (List.erase_of_not_mem hm).symm

/-- Concrete instantiation of `delete_success_c3`: deleting the only record
by its own author empties both the list and the blob directory. -/
theorem delete_success_c3_witness :
    deleteHandler ⟨DocState.wellFormed [recA], [recA.filename]⟩
        "1700000000000" "u1" true =
      ({ status := 200, body := Body.message "Файл удален" },
       { doc := DocState.wellFormed [], blobs := [] }) := by
  have h := (delete_success_c3 ⟨DocState.wellFormed [recA], [recA.filename]⟩
    "1700000000000" "u1" 0 recA (by decide) (by decide)).1
  simpa using h

/-- Claim C4: a delete whose id matches a record but whose userId differs
from the record's authorId responds HTTP 403 with the state unchanged; a
delete whose id matches no record responds HTTP 404 with the state
unchanged. -/
theorem delete_reject_c4 (st : ServerState) (reqId uid : String) (w : Bool) :
    (∀ k file,
      findWithIdx (fun f => f.id == reqId) (readFilesVal st.doc) = some (k, file) →
      file.authorId ≠ uid →
      deleteHandler st reqId uid w =
        ({ status := 403, body := Body.errPayload "Нельзя удалить чужой файл" }, st)) ∧
    (findWithIdx (fun f => f.id == reqId) (readFilesVal st.doc) = none →
      deleteHandler st reqId uid w =
        ({ status := 404, body := Body.errPayload "Файл не найден" }, st)) := by
  refine ⟨fun k file hfind hauth => ?_, fun hfind => ?_⟩
  · have hne : (file.authorId == uid) = false := by
      rw [beq_eq_false_iff_ne]; exact hauth
    simp [deleteHandler, hfind, hne]
  · simp [deleteHandler, hfind]

/-- Concrete instantiation of `delete_reject_c4`: a foreign userId gets 403
and an unknown id gets 404, both leaving the concrete state as it was. -/
theorem delete_reject_c4_witness :
    deleteHandler ⟨DocState.wellFormed [recA], [recA.filename]⟩
        "1700000000000" "u2" true =
      ({ status := 403, body := Body.errPayload "Нельзя удалить чужой файл" },
       ⟨DocState.wellFormed [recA], [recA.filename]⟩) ∧
    deleteHandler ⟨DocState.wellFormed [recA], [recA.filename]⟩
        "9999" "u1" true =
      ({ status := 404, body := Body.errPayload "Файл не найден" },
       ⟨DocState.wellFormed [recA], [recA.filename]⟩) := by
  exact ⟨(delete_reject_c4 _ _ _ _).1 0 recA (by decide) (by decide),
         (delete_reject_c4 _ _ _ _).2 (by decide)⟩

/-- Claim C8: a successful delete of the record at position `k` rewrites the
list to exactly the prior list with the element at position `k` removed —
the records before and after it are unchanged and keep their relative
order. -/
theorem delete_frame_c8 (st : ServerState) (reqId uid : String) (k : Nat)
    (file : FileRecord)
    (hfind : findWithIdx (fun f => f.id == reqId) (readFilesVal st.doc) = some (k, file))
    (hauth : file.authorId = uid) :
    readFilesVal (deleteHandler st reqId uid true).2.doc =
      (readFilesVal st.doc).take k ++ (readFilesVal st.doc).drop (k + 1) := by
  simp [deleteHandler, hfind, hauth, readFilesVal_wellFormed,
    eraseIdx_eq_take_append_drop]

/-- Concrete instantiation of `delete_frame_c8`: deleting the middle record
of three leaves the outer two in order. -/
theorem delete_frame_c8_witness :
    readFilesVal (deleteHandler
        ⟨DocState.wellFormed [recA, recB, recC], [recB.filename]⟩
        "1700000000001" "u2" true).2.doc = [recA, recC] := by
  have h := delete_frame_c8
    ⟨DocState.wellFormed [recA, recB, recC], [recB.filename]⟩
    "1700000000001" "u2" 1 recB (by decide) (by decide)
  simpa using h

/-- Claim C10: when the metadata list holds two records with the same id,
the download handler streams the first match's blob, and the delete handler
authorizes against the first match and removes only it. -/
theorem duplicate_first_match_c10 (pre post : List FileRecord)
    (r₁ r₂ : FileRecord) (blobs : List String) (reqId uid : String)
    (h₁ : r₁.id = reqId) (h₂ : r₂.id = reqId)
    (hpre : ∀ x ∈ pre, x.id ≠ reqId) :
    (blobs.contains r₁.filename = true →
      downloadHandler ⟨DocState.wellFormed (pre ++ r₁ :: r₂ :: post), blobs⟩ reqId =
        ({ status := 200, body := Body.fileStream r₁.filename r₁.name },
         ⟨DocState.wellFormed (pre ++ r₁ :: r₂ :: post), blobs⟩)) ∧
    (r₁.authorId = uid →
      deleteHandler ⟨DocState.wellFormed (pre ++ r₁ :: r₂ :: post), blobs⟩
          reqId uid true =
        ({ status := 200, body := Body.message "Файл удален" },
         ⟨DocState.wellFormed (pre ++ r₂ :: post), blobs.erase r₁.filename⟩)) ∧
    (r₁.authorId ≠ uid →
      (deleteHandler ⟨DocState.wellFormed (pre ++ r₁ :: r₂ :: post), blobs⟩
          reqId uid true).1 =
        { status := 403, body := Body.errPayload "Нельзя удалить чужой файл" }) := by
  have h₁b : (r₁.id == reqId) = true := by simp [h₁]
  have hpreb : ∀ x ∈ pre, (x.id == reqId) = false := fun x hx => by
    rw [beq_eq_false_iff_ne]; exact hpre x hx
  have hfind := findWithIdx_append_first (fun f => f.id == reqId) pre
    (r₂ :: post) r₁ h₁b hpreb
  have hfindq : (pre ++ r₁ :: r₂ :: post).find? (fun f => f.id == reqId) = some r₁ := by
    rw [find_eq_findWithIdx_snd, hfind]; rfl
  refine ⟨fun hb => ?_, fun hauth => ?_, fun hauth => ?_⟩
  · have hb' : r₁.filename ∈ blobs := by simpa using hb
    simp [downloadHandler, readFilesVal_wellFormed, hfindq, hb']
  · simp [deleteHandler, readFilesVal_wellFormed, hfind, hauth,
      eraseIdx_append_cons] <;>
      exact fun hm => (List.erase_of_not_mem hm).symm
  · have hne : (r₁.authorId == uid) = false := by
      rw [beq_eq_false_iff_ne]; exact hauth
    simp [deleteHandler, readFilesVal_wellFormed, hfind, hne]

/-- Concrete instantiation of `duplicate_first_match_c10`: with `recA` and
`recDup` sharing an id, download streams `recA`'s blob; deleting as the
second record's author is refused because authorization checks the first
match; deleting as the first record's author removes only `recA`. -/
theorem duplicate_first_match_c10_witness :
    downloadHandler
        ⟨DocState.wellFormed [recA, recDup], [recA.filename, recDup.filename]⟩
        "1700000000000" =
      ({ status := 200, body := Body.fileStream recA.filename recA.name },
       ⟨DocState.wellFormed [recA, recDup], [recA.filename, recDup.filename]⟩) ∧
    (deleteHandler
        ⟨DocState.wellFormed [recA, recDup], [recA.filename, recDup.filename]⟩
        "1700000000000" "u2" true).1 =
      { status := 403, body := Body.errPayload "Нельзя удалить чужой файл" } ∧
    deleteHandler
        ⟨DocState.wellFormed [recA, recDup], [recA.filename, recDup.filename]⟩
        "1700000000000" "u1" true =
      ({ status := 200, body := Body.message "Файл удален" },
       ⟨DocState.wellFormed [recDup], [recDup.filename]⟩) := by
  refine ⟨?_, ?_, ?_⟩
  · exact (duplicate_first_match_c10 [] [] recA recDup _ _ "u1" (by decide)
      (by decide) (by intro x hx; cases hx)).1 (by decide)
  · exact (duplicate_first_match_c10 [] [] recA recDup _ _ "u2" (by decide)
      (by decide) (by intro x hx; cases hx)).2.2 (by decide)
  · have h := (duplicate_first_match_c10 [] [] recA recDup
      [recA.filename, recDup.filename] "1700000000000" "u1" (by decide)
      (by decide) (by intro x hx; cases hx)).2.1 (by decide)
    simpa using h

end FileShare
